import Mathlib

/-!
Verification development for the gvrun launcher (main.go).

gvrun builds an OCI bundle (a temporary directory with an empty rootfs and a
config.json holding the runtime spec), raises RLIMIT_NOFILE, and invokes the
external runsc runtime.  The embedding below models main.go shallowly:

* Filesystem paths are absolute paths represented as lists of components
  (`Path`); `pathStr` renders them in the usual slash form.
* The host filesystem visible to `filepath.EvalSymlinks` is a partial map
  from paths to nodes (`FS`); symlink targets carry a flag saying whether
  the target is absolute or relative to the directory holding the link.
  Dot components are not modelled.  `walk` follows the stdlib contract:
  every component must exist, non-final components must be directories or
  symlinks to directories, and at most 255 symlink traversals are allowed
  before resolution fails (a loop exhausts the budget).
* `run` mirrors the run function of main.go as a function from the launcher
  configuration (flag values, guest argv) and the host state (filesystem,
  environment, working directory, the unique name ioutil.TempDir picks, the
  rlimit values, the behaviour of the runsc child) to an outcome plus a
  trace of host-visible operations (`Event`).  Go defer semantics are
  modelled explicitly: the deferred specFile.Close and os.RemoveAll run on
  every exit from run, including panic unwinding, so every branch of `run`
  appends `exitEvents`.  Host calls whose failure the claims do not touch
  (ioutil.TempDir, os.Mkdir, os.Create, os.Getwd, json Encode, Setrlimit)
  are modelled as succeeding; filepath.Abs of the guest argument is modelled
  by the `binary` field of `Config` since paths are already absolute here.
* `mainExit` mirrors main: log.Fatal exits with status 1, an unrecovered Go
  panic terminates the process with status 2.
-/

namespace Gvrun

/-- An absolute filesystem path, as its list of components. -/
abbrev Path := List String

/-- Render a path in slash form, e.g. `pathStr ["tmp", "g"] = "/tmp/g"`. -/
def pathStr (p : Path) : String :=
  p.foldl (fun acc c => acc ++ "/" ++ c) ""

/-- A filesystem object: regular file, directory, or symlink.  A symlink
target is a path, either absolute (`abs = true`) or relative to the
directory containing the link. -/
inductive Node where
  | file : Node
  | dir : Node
  | symlink (abs : Bool) (target : Path) : Node
deriving DecidableEq

/-- The host filesystem: which node, if any, lives at a given path. -/
abbrev FS := Path → Option Node

/-- The process environment, as read by os.LookupEnv. -/
abbrev Env := String → Option String

/-- Is this (looked-up) node a symlink? -/
def isSymlink : Option Node → Bool
  | some (Node.symlink _ _) => true
  | _ => false

/-- `walkSeg` consumes the remaining components `rest` on top of the already
resolved prefix `pre`.  On hitting a symlink it delegates to `onLink`, which
receives the new prefix (root for absolute targets, `pre` for relative ones)
and the expanded remaining components.  Mirrors the component loop of
filepath.EvalSymlinks. -/
def walkSeg (fs : FS) (onLink : Path → Path → Option Path) : Path → Path → Option Path
  | pre, [] => some pre
  | pre, c :: rest =>
    match fs (pre ++ [c]) with
    | none => none
    | some Node.file => if rest = [] then some (pre ++ [c]) else none
    | some Node.dir => walkSeg fs onLink (pre ++ [c]) rest
    | some (Node.symlink abs tgt) =>
      onLink (if abs then [] else pre) (tgt ++ rest)

/-- `walk fs fuel pre rest` resolves `rest` on top of `pre`, following at
most `fuel` symlinks (filepath.EvalSymlinks allows 255 traversals before
reporting "too many links"). -/
def walk (fs : FS) : Nat → Path → Path → Option Path
  | 0, pre, rest => walkSeg fs (fun _ _ => none) pre rest
  | Nat.succ fuel, pre, rest => walkSeg fs (walk fs fuel) pre rest

/-- The symlink-traversal budget of filepath.EvalSymlinks. -/
def maxLinks : Nat := 255

/-- Model of filepath.EvalSymlinks: the canonical symlink-free path, or
`none` when resolution cannot complete (missing component, non-directory in
the middle, or symlink budget exhausted, e.g. by a loop). -/
def evalSymlinks (fs : FS) (p : Path) : Option Path :=
  walk fs maxLinks [] p

/-- The result is fully resolved: no prefix of it (the final component
included) names a symlink. -/
def fullyResolved (fs : FS) (r : Path) : Prop :=
  ∀ i ∈ List.range (r.length + 1), 0 < i → isSymlink (fs (r.take i)) = false

instance (fs : FS) (r : Path) : Decidable (fullyResolved fs r) := by
  unfold fullyResolved; infer_instance

/-- A mount entry of the runtime spec (specs.Mount): the fields main.go
sets.  `destination` is the path as seen by the guest, `source` the resolved
host location bound underneath it. -/
structure Mount where
  type : String
  destination : Path
  source : Path
deriving DecidableEq

/-- Result of resolvedMount: either a panic (Go panic with a message) or the
constructed mount.  main.go panics instead of returning an error (the TODO
in the source acknowledges this). -/
inductive MountRes where
  | panicked (msg : String) : MountRes
  | ok (m : Mount) : MountRes
deriving DecidableEq

/-- The panic message of resolvedMount for a given path. -/
def resolveMsg (p : Path) : String :=
  "failed to resolve symlinks of " ++ pathStr p

/-- Model of resolvedMount in main.go: resolve the path, panic on failure,
otherwise build a bind mount from the original path to the resolved one. -/
def resolvedMount (fs : FS) (path : Path) : MountRes :=
  match evalSymlinks fs path with
  | none => MountRes.panicked (resolveMsg path)
  | some resolved => MountRes.ok { type := "bind", destination := path, source := resolved }

/-- Resolve a list of paths in order, stopping at the first panic, as the
sequential resolvedMount calls in main.go do. -/
def resolveMounts (fs : FS) : List Path → Except String (List Mount)
  | [] => Except.ok []
  | p :: ps =>
    match resolvedMount fs p with
    | MountRes.panicked m => Except.error m
    | MountRes.ok mnt =>
      match resolveMounts fs ps with
      | Except.error m => Except.error m
      | Except.ok ms => Except.ok (mnt :: ms)

/-- The invoking identity determined by originalUser. -/
structure Ident where
  uid : Nat
  gid : Nat
  username : String
deriving DecidableEq

/-- Model of strconv.ParseUint(s, 10, 32): a nonempty all-digit decimal
string whose value fits in 32 bits; anything else is an error. -/
def parseUint32 (s : String) : Option Nat :=
  let cs := s.data
  if cs = [] then none
  else if cs.all Char.isDigit then
    let n := cs.foldl (fun n c => 10 * n + (c.toNat - 48)) 0
    if n < 4294967296 then some n else none
  else none

/-- Model of originalUser in main.go: read SUDO_UID, SUDO_GID, SUDO_USER
from the environment, parsing the numeric ones as 32-bit unsigned decimal
integers, failing on the first absent or unparsable value. -/
def originalUser (env : Env) : Except String Ident :=
  match env "SUDO_UID" with
  | none => Except.error "unable to determine original uid; did you run under sudo?"
  | some uidString =>
    match parseUint32 uidString with
    | none => Except.error ("error converting " ++ uidString ++ " to uint32")
    | some uid =>
      match env "SUDO_GID" with
      | none => Except.error "unable to determine original gid; did you run under sudo?"
      | some gidString =>
        match parseUint32 gidString with
        | none => Except.error ("error converting " ++ gidString ++ " to uint32")
        | some gid =>
          match env "SUDO_USER" with
          | none => Except.error "unable to determine original username; did you run under sudo?"
          | some name => Except.ok { uid := uid, gid := gid, username := name }

/-- The process identity field of the spec (specs.User). -/
structure SpecUser where
  uid : Nat
  gid : Nat
  username : String
deriving DecidableEq

/-- The process section of the spec (specs.Process): the fields main.go
sets.  `capabilities = none` serializes as JSON null. -/
structure SpecProcess where
  args : List String
  env : List String
  cwd : Path
  user : SpecUser
  capabilities : Option (List String)
deriving DecidableEq

/-- The runtime spec main.go serializes to config.json (specs.Spec). -/
structure Spec where
  process : SpecProcess
  hostname : String
  rootPath : Path
  mounts : List Mount
deriving DecidableEq

/-- An rlimit value pair: soft (cur) and hard (max) limits. -/
structure Rlimit where
  cur : Nat
  max : Nat
deriving DecidableEq

/-- Where a child standard stream is connected.  os/exec connects a stream
to the null device when the field is left unset; main.go sets all three to
the own streams of the launcher. -/
inductive StdStream where
  | hostStdin : StdStream
  | hostStdout : StdStream
  | hostStderr : StdStream
  | nullDevice : StdStream
deriving DecidableEq

/-- Host-visible operations performed by run, in order. -/
inductive Event where
  | tempDir (d : Path) : Event
  | mkdir (d : Path) : Event
  | createFile (p : Path) : Event
  | writeSpec (p : Path) (s : Spec) : Event
  | getrlimit (l : Rlimit) : Event
  | setrlimit (l : Rlimit) : Event
  | exec (argv : List String) (stdin stdout stderr : StdStream) : Event
  | closeFile (p : Path) : Event
  | removeAll (d : Path) : Event
deriving DecidableEq

/-- How the run of the runsc child ends: it cannot be started at all, or it
exits with the given status (cmd.Run returns an error exactly when the
start fails or the status is nonzero). -/
inductive RunscBehavior where
  | startError (msg : String) : RunscBehavior
  | exited (code : Nat) : RunscBehavior
deriving DecidableEq

/-- How run terminates: normal return without error, an error return
(reported by main via log.Fatal), or a Go panic (from resolvedMount). -/
inductive Outcome where
  | ok : Outcome
  | error (msg : String) : Outcome
  | panicked (msg : String) : Outcome
deriving DecidableEq

/-- The launcher configuration: flag values and guest argv.  `extraEnv` and
`extraDirs` hold the comma-split values of the -extra_env and -extra_dirs
flags (empty list when the flag is unset).  `binary` is the absolute path
denoted by args[0] (filepath.Abs of it). -/
structure Config where
  runscBin : String
  extraEnv : List String
  extraDirs : List Path
  args : List String
  binary : Path

/-- The host state an invocation runs against. -/
structure Host where
  fs : FS
  env : Env
  wd : Path
  tmpDir : Path
  rlimit : Rlimit
  runsc : RunscBehavior

/-- The RLIMIT_NOFILE threshold (const fileLimit in main.go). -/
def fileLimit : Nat := 32768

/-- The fixed paths main.go always mounts, in source order: the guest
binary, the working directory, then the dynamic linker, libc and libpthread
under the /lib/x86_64-linux-gnu layout (linker at /lib64) and under the
/usr/grte/v4 layout. -/
def fixedPaths (cfg : Config) (h : Host) : List Path :=
  [cfg.binary, h.wd,
   ["lib64", "ld-linux-x86-64.so.2"],
   ["lib", "x86_64-linux-gnu", "libc.so.6"],
   ["lib", "x86_64-linux-gnu", "libpthread.so.0"],
   ["usr", "grte", "v4", "lib64", "ld-linux-x86-64.so.2"],
   ["usr", "grte", "v4", "lib64", "libc.so.6"],
   ["usr", "grte", "v4", "lib64", "libpthread.so.0"]]

/-- The spec main.go builds: the literal at lines 124-158 with the
-extra_env values appended to the environment and the -extra_dirs mounts
appended to the fixed mounts (appending nothing when a flag is unset equals
skipping the append). -/
def mkSpec (cfg : Config) (wd rootPath : Path) (ident : Ident)
    (fixedMounts extraMounts : List Mount) : Spec :=
  { process := {
      args := cfg.args
      env := ["HOME=/tmp", "PATH=/usr/local/bin:/usr/bin:/bin",
              "USER=" ++ ident.username] ++ cfg.extraEnv
      cwd := wd
      user := { uid := ident.uid, gid := ident.gid, username := ident.username }
      capabilities := none }
    hostname := "runsc-gvrun"
    rootPath := rootPath
    mounts := fixedMounts ++ extraMounts }

/-- The argument vector of the runsc child: the runsc binary itself, the
in-memory-overlay flag, the networking-off flag, the run action, the bundle
flag with the bundle directory, and the fixed container name. -/
def runscArgv (cfg : Config) (dir : Path) : List String :=
  [cfg.runscBin, "--overlay", "--network=none", "run", "--bundle", pathStr dir, "gvrun"]

/-- Events of the straight-line prefix of run: create the temporary bundle
directory, the rootfs subdirectory, and the config.json file. -/
def preEvents (dir : Path) : List Event :=
  [Event.tempDir dir,
   Event.mkdir (dir ++ ["rootfs"]),
   Event.createFile (dir ++ ["config.json"])]

/-- Events of the deferred calls, run on every exit from run (normal return
or panic unwinding), in LIFO order: specFile.Close, then os.RemoveAll of
the bundle directory. -/
def exitEvents (dir : Path) : List Event :=
  [Event.closeFile (dir ++ ["config.json"]),
   Event.removeAll dir]

/-- The branching middle of run (after the temp directory, rootfs and
config.json exist, before the deferred calls): determine the user, resolve
all mounts, write the spec, check and raise the rlimit, invoke runsc.
Returns the outcome together with the events of this region. -/
def runMid (cfg : Config) (h : Host) : Outcome × List Event :=
  match originalUser h.env with
  | Except.error e => (Outcome.error ("error determining user: " ++ e), [])
  | Except.ok ident =>
    match resolveMounts h.fs (fixedPaths cfg h) with
    | Except.error m => (Outcome.panicked m, [])
    | Except.ok fixedMounts =>
      match resolveMounts h.fs cfg.extraDirs with
      | Except.error m => (Outcome.panicked m, [])
      | Except.ok extraMounts =>
        let spec := mkSpec cfg h.wd (h.tmpDir ++ ["rootfs"]) ident fixedMounts extraMounts
        let ev := [Event.writeSpec (h.tmpDir ++ ["config.json"]) spec,
                   Event.getrlimit h.rlimit]
        if h.rlimit.max < fileLimit then
          (Outcome.error "file limit too low", ev)
        else
          let ev2 := ev ++ [Event.setrlimit { cur := fileLimit, max := h.rlimit.max },
                            Event.exec (runscArgv cfg h.tmpDir)
                              StdStream.hostStdin StdStream.hostStdout StdStream.hostStderr]
          match h.runsc with
          | RunscBehavior.startError m => (Outcome.error ("command failed: " ++ m), ev2)
          | RunscBehavior.exited c =>
            if c = 0 then (Outcome.ok, ev2)
            else (Outcome.error ("command failed: exit status " ++ Nat.repr c), ev2)

/-- The middle-region events when run stops at the too-low hard limit:
the spec has been written and the rlimit read. -/
def midEventsLow (cfg : Config) (h : Host) (ident : Ident)
    (fm em : List Mount) : List Event :=
  [Event.writeSpec (h.tmpDir ++ ["config.json"])
      (mkSpec cfg h.wd (h.tmpDir ++ ["rootfs"]) ident fm em),
   Event.getrlimit h.rlimit]

/-- The middle-region events when run proceeds past the limit check: the
soft limit is raised and runsc is invoked. -/
def midEventsFull (cfg : Config) (h : Host) (ident : Ident)
    (fm em : List Mount) : List Event :=
  midEventsLow cfg h ident fm em ++
  [Event.setrlimit { cur := fileLimit, max := h.rlimit.max },
   Event.exec (runscArgv cfg h.tmpDir)
     StdStream.hostStdin StdStream.hostStdout StdStream.hostStderr]

/-- The mount list of a successful resolveMounts result, empty on error. -/
def mountsOrNil (x : Except String (List Mount)) : List Mount :=
  match x with
  | Except.ok ms => ms
  | Except.error _ => []

/-- The result of one invocation of run: how it ended and what it did. -/
structure RunResult where
  outcome : Outcome
  trace : List Event
deriving DecidableEq

/-- Model of run in main.go.  The deferred Close and RemoveAll run last on
every path (Go runs deferred calls during panic unwinding too). -/
def run (cfg : Config) (h : Host) : RunResult :=
  { outcome := (runMid cfg h).1
    trace := (preEvents h.tmpDir ++ (runMid cfg h).2) ++ exitEvents h.tmpDir }

/-- Model of main in main.go: usage errors and run errors go through
log.Fatal (exit status 1); an unrecovered panic gives the Go runtime exit
status 2;
otherwise exit status 0. -/
def mainExit (cfg : Config) (h : Host) : Nat :=
  if cfg.args = [] then 1
  else if cfg.runscBin = "" then 1
  else
    match (run cfg h).outcome with
    | Outcome.ok => 0
    | Outcome.error _ => 1
    | Outcome.panicked _ => 2

/-- The launcher exit status cmd.Run-level behaviour implies when the child
runs: 0 only when the child exits 0, else status 1 from log.Fatal. -/
def fatalExitFor : RunscBehavior → Nat
  | RunscBehavior.exited 0 => 0
  | _ => 1

/-- Is an Except value an ok? -/
def exceptOk {ε : Type u} {α : Type v} : Except ε α → Bool
  | Except.ok _ => true
  | Except.error _ => false

/-- Is an outcome a panic? -/
def isPanic : Outcome → Bool
  | Outcome.panicked _ => true
  | _ => false

/-- Extract the spec written by a writeSpec event. -/
def specOfEvent : Event → Option Spec
  | Event.writeSpec _ s => some s
  | _ => none

/-- All specs written during a trace, in order. -/
def writtenSpecs (tr : List Event) : List Spec :=
  tr.filterMap specOfEvent

/-- One invocation of the external runtime. -/
structure ExecCall where
  argv : List String
  stdin : StdStream
  stdout : StdStream
  stderr : StdStream
deriving DecidableEq

/-- Extract an exec event. -/
def execOfEvent : Event → Option ExecCall
  | Event.exec a i o e => some (ExecCall.mk a i o e)
  | _ => none

/-- All invocations of the external runtime during a trace, in order. -/
def execCalls (tr : List Event) : List ExecCall :=
  tr.filterMap execOfEvent

/-- Is this event the creation of a temporary directory? -/
def isTempDirEvent : Event → Bool
  | Event.tempDir _ => true
  | _ => false

/-- Is this event a read of the rlimit? -/
def isGetrlimitEvent : Event → Bool
  | Event.getrlimit _ => true
  | _ => false

/-- Is this event a write of the rlimit? -/
def isSetrlimitEvent : Event → Bool
  | Event.setrlimit _ => true
  | _ => false

/-- Replay a trace against the existence of directory `d`: tempDir creates
it, removeAll deletes it. -/
def dirStep (d : Path) (b : Bool) : Event → Bool
  | Event.tempDir d2 => if d2 = d then true else b
  | Event.removeAll d2 => if d2 = d then false else b
  | _ => b

/-- Does directory `d` exist after replaying the trace (starting from a
state where it does not exist)? -/
def dirExistsAfter (d : Path) (tr : List Event) : Bool :=
  tr.foldl (dirStep d) false

/-- The pointwise relationship resolvedMount establishes between a
requested path and the produced mount: a bind mount whose destination is
the original path and whose source is its resolved form. -/
def MountRel (fs : FS) (p : Path) (m : Mount) : Prop :=
  m.type = "bind" ∧ m.destination = p ∧ evalSymlinks fs p = some m.source

/-- A concrete host filesystem for witnesses: the fixed library paths under
both layouts, a guest binary /bin/echo, a working directory /home/user, and
a symlink /bin/sh pointing at /bin/echo. -/
def sampleEntries : List (Path × Node) :=
  [(["bin"], Node.dir),
   (["bin", "echo"], Node.file),
   (["bin", "sh"], Node.symlink true ["bin", "echo"]),
   (["home"], Node.dir),
   (["home", "user"], Node.dir),
   (["lib64"], Node.dir),
   (["lib64", "ld-linux-x86-64.so.2"], Node.file),
   (["lib"], Node.dir),
   (["lib", "x86_64-linux-gnu"], Node.dir),
   (["lib", "x86_64-linux-gnu", "libc.so.6"], Node.file),
   (["lib", "x86_64-linux-gnu", "libpthread.so.0"], Node.file),
   (["usr"], Node.dir),
   (["usr", "grte"], Node.dir),
   (["usr", "grte", "v4"], Node.dir),
   (["usr", "grte", "v4", "lib64"], Node.dir),
   (["usr", "grte", "v4", "lib64", "ld-linux-x86-64.so.2"], Node.file),
   (["usr", "grte", "v4", "lib64", "libc.so.6"], Node.file),
   (["usr", "grte", "v4", "lib64", "libpthread.so.0"], Node.file)]

/-- Turn an entry list into a filesystem. -/
def fsOfEntries (es : List (Path × Node)) : FS :=
  fun p => (es.find? (fun e => e.1 = p)).map (fun e => e.2)

/-- The sample filesystem. -/
def sampleFS : FS := fsOfEntries sampleEntries

/-- The sample filesystem with the /usr/grte/v4 library files missing. -/
def noGrteFS : FS :=
  fsOfEntries (sampleEntries.filter (fun e =>
    !(e.1 = ["usr", "grte", "v4", "lib64", "ld-linux-x86-64.so.2"] ||
      e.1 = ["usr", "grte", "v4", "lib64", "libc.so.6"] ||
      e.1 = ["usr", "grte", "v4", "lib64", "libpthread.so.0"])))

/-- A sudo-style environment exposing the invoking identity. -/
def sampleEnv : Env := fun k =>
  if k = "SUDO_UID" then some "1000"
  else if k = "SUDO_GID" then some "1000"
  else if k = "SUDO_USER" then some "user"
  else none

/-- A configuration running /bin/echo hello with no extra flags. -/
def sampleCfg : Config :=
  { runscBin := "runsc"
    extraEnv := []
    extraDirs := []
    args := ["/bin/echo", "hello"]
    binary := ["bin", "echo"] }

/-- The sample host: generous hard fd limit, guest succeeds. -/
def sampleHost : Host :=
  { fs := sampleFS
    env := sampleEnv
    wd := ["home", "user"]
    tmpDir := ["tmp", "gvrun123"]
    rlimit := { cur := 1024, max := 65536 }
    runsc := RunscBehavior.exited 0 }

/-- The sample host with the hard fd limit below the threshold. -/
def lowLimitHost : Host :=
  { sampleHost with rlimit := { cur := 1024, max := 1024 } }

/-- The sample host whose guest exits with status 5. -/
def guestFailHost : Host :=
  { sampleHost with runsc := RunscBehavior.exited 5 }

/-- The sample host lacking the /usr/grte/v4 library layout. -/
def noGrteHost : Host :=
  { sampleHost with fs := noGrteFS }

/-- The sample configuration pointing at a nonexistent guest binary. -/
def missingBinCfg : Config :=
  { sampleCfg with binary := ["bin", "missing"], args := ["/bin/missing"] }

/-- The sample configuration with two extra directories. -/
def extrasCfg : Config :=
  { sampleCfg with extraDirs := [["bin"], ["home"]] }

/-- The sample configuration passing the same extra directory twice. -/
def dupExtraCfg : Config :=
  { sampleCfg with extraDirs := [["bin"], ["bin"]] }

/-- The eight fixed mounts on the sample host: nothing is a symlink, so
every path resolves to itself. -/
def sampleFixedMounts : List Mount :=
  [{ type := "bind", destination := ["bin", "echo"], source := ["bin", "echo"] },
   { type := "bind", destination := ["home", "user"], source := ["home", "user"] },
   { type := "bind", destination := ["lib64", "ld-linux-x86-64.so.2"],
     source := ["lib64", "ld-linux-x86-64.so.2"] },
   { type := "bind", destination := ["lib", "x86_64-linux-gnu", "libc.so.6"],
     source := ["lib", "x86_64-linux-gnu", "libc.so.6"] },
   { type := "bind", destination := ["lib", "x86_64-linux-gnu", "libpthread.so.0"],
     source := ["lib", "x86_64-linux-gnu", "libpthread.so.0"] },
   { type := "bind", destination := ["usr", "grte", "v4", "lib64", "ld-linux-x86-64.so.2"],
     source := ["usr", "grte", "v4", "lib64", "ld-linux-x86-64.so.2"] },
   { type := "bind", destination := ["usr", "grte", "v4", "lib64", "libc.so.6"],
     source := ["usr", "grte", "v4", "lib64", "libc.so.6"] },
   { type := "bind", destination := ["usr", "grte", "v4", "lib64", "libpthread.so.0"],
     source := ["usr", "grte", "v4", "lib64", "libpthread.so.0"] }]

/-- The spec run writes on the sample host with the sample configuration. -/
def sampleSpec : Spec :=
  { process := {
      args := ["/bin/echo", "hello"]
      env := ["HOME=/tmp", "PATH=/usr/local/bin:/usr/bin:/bin", "USER=user"]
      cwd := ["home", "user"]
      user := { uid := 1000, gid := 1000, username := "user" }
      capabilities := none }
    hostname := "runsc-gvrun"
    rootPath := ["tmp", "gvrun123", "rootfs"]
    mounts := sampleFixedMounts }

/-- The spec run writes with the two extra directories of extrasCfg. -/
def extrasSpec : Spec :=
  { sampleSpec with
      mounts := sampleFixedMounts ++
        [{ type := "bind", destination := ["bin"], source := ["bin"] },
         { type := "bind", destination := ["home"], source := ["home"] }] }

/- ### Helper lemmas -/

/-- The empty path has no symlink prefix. -/
theorem fullyResolved_nil (fs : FS) : fullyResolved fs [] := by
  intro i hi h0
  simp only [List.length_nil, List.mem_range] at hi
  omega

/-- Extending a fully resolved prefix by a non-symlink component keeps it
fully resolved. -/
theorem fullyResolved_extend {fs : FS} {pre : Path} {c : String}
    (hpre : fullyResolved fs pre) (hc : isSymlink (fs (pre ++ [c])) = false) :
    fullyResolved fs (pre ++ [c]) := by
  intro i hi h0
  simp only [List.mem_range, List.length_append, List.length_cons,
    List.length_nil] at hi
  by_cases hle : i ≤ pre.length
  · rw [List.take_append_of_le_length hle]
    exact hpre i (by simp only [List.mem_range]; omega) h0
  · have hieq : i = pre.length + 1 := by omega
    rw [hieq, List.take_of_length_le (by simp)]
    exact hc

/-- The segment walker only returns fully resolved paths, provided the
symlink continuation does. -/
theorem walkSeg_resolved (fs : FS) (onLink : Path → Path → Option Path)
    (honl : ∀ p q r, fullyResolved fs p → onLink p q = some r → fullyResolved fs r) :
    ∀ rest pre r, fullyResolved fs pre → walkSeg fs onLink pre rest = some r →
      fullyResolved fs r := by
  intro rest
  induction rest with
  | nil =>
    intro pre r hpre hw
    simp only [walkSeg, Option.some.injEq] at hw
    exact hw ▸ hpre
  | cons c rest ih =>
    intro pre r hpre hw
    simp only [walkSeg] at hw
    split at hw
    · simp at hw
    · rename_i heq
      by_cases hrest : rest = []
      · rw [if_pos hrest] at hw
        simp only [Option.some.injEq] at hw
        exact hw ▸ fullyResolved_extend hpre (by rw [heq]; rfl)
      · rw [if_neg hrest] at hw
        simp at hw
    · rename_i heq
      exact ih (pre ++ [c]) r (fullyResolved_extend hpre (by rw [heq]; rfl)) hw
    · rename_i abs tgt heq
      refine honl _ _ _ ?_ hw
      cases abs with
      | false => simpa using hpre
      | true => simpa using fullyResolved_nil fs

/-- The fueled walker only returns fully resolved paths. -/
theorem walk_resolved (fs : FS) :
    ∀ fuel pre rest r, fullyResolved fs pre → walk fs fuel pre rest = some r →
      fullyResolved fs r := by
  intro fuel
  induction fuel with
  | zero =>
    intro pre rest r hpre hw
    simp only [walk] at hw
    exact walkSeg_resolved fs _ (fun p q r2 _ h => by simp at h) rest pre r hpre hw
  | succ fuel ih =>
    intro pre rest r hpre hw
    simp only [walk] at hw
    exact walkSeg_resolved fs _ (fun p q r2 hp h => ih p q r2 hp h) rest pre r hpre hw

/-- A successful EvalSymlinks result is fully resolved: no prefix of it,
the final component included, is a symlink. -/
theorem evalSymlinks_resolved {fs : FS} {p r : Path}
    (h : evalSymlinks fs p = some r) : fullyResolved fs r :=
  walk_resolved fs maxLinks [] p r (fullyResolved_nil fs) h

/-- A successful resolveMounts run relates inputs and outputs pointwise,
in order. -/
theorem resolveMounts_ok_rel (fs : FS) :
    ∀ ps ms, resolveMounts fs ps = Except.ok ms →
      List.Forall₂ (MountRel fs) ps ms := by
  intro ps
  induction ps with
  | nil =>
    intro ms h
    simp only [resolveMounts, Except.ok.injEq] at h
    rw [← h]
    exact List.Forall₂.nil
  | cons p ps ih =>
    intro ms h
    simp only [resolveMounts] at h
    cases hm : resolvedMount fs p with
    | panicked m => rw [hm] at h; simp at h
    | ok mnt =>
      rw [hm] at h
      cases hr : resolveMounts fs ps with
      | error m => rw [hr] at h; simp at h
      | ok ms2 =>
        rw [hr] at h
        simp only [Except.ok.injEq] at h
        rw [← h]
        refine List.Forall₂.cons ?_ (ih ms2 hr)
        unfold resolvedMount at hm
        cases hev : evalSymlinks fs p with
        | none => rw [hev] at hm; simp at hm
        | some res =>
          rw [hev] at hm
          simp only [MountRes.ok.injEq] at hm
          rw [← hm]
          exact ⟨rfl, rfl, hev⟩

/-- If some requested path fails to resolve, resolveMounts fails. -/
theorem resolveMounts_error_of_fail (fs : FS) :
    ∀ ps, (∃ p ∈ ps, evalSymlinks fs p = none) →
      ∃ e, resolveMounts fs ps = Except.error e := by
  intro ps
  induction ps with
  | nil =>
    rintro ⟨p, hp, _⟩
    exact absurd hp (List.not_mem_nil p)
  | cons q ps ih =>
    rintro ⟨p, hp, hev⟩
    rw [List.mem_cons] at hp
    by_cases hq : evalSymlinks fs q = none
    · refine ⟨resolveMsg q, ?_⟩
      simp only [resolveMounts]
      unfold resolvedMount
      rw [hq]
    · have hpps : p ∈ ps := by
        cases hp with
        | inl h => exact absurd (h ▸ hev) hq
        | inr h => exact h
      obtain ⟨e, he⟩ := ih ⟨p, hpps, hev⟩
      cases hm : resolvedMount fs q with
      | panicked m => exact ⟨m, by simp only [resolveMounts]; rw [hm]⟩
      | ok mnt => exact ⟨e, by simp only [resolveMounts]; rw [hm, he]⟩

/-- An Except value with a true ok test is an ok. -/
theorem exceptOk_exists {ε : Type u} {α : Type v} {x : Except ε α}
    (h : exceptOk x = true) : ∃ a, x = Except.ok a := by
  cases x with
  | ok a => exact ⟨a, rfl⟩
  | error e => simp [exceptOk] at h

/-- Whatever happened before, after the deferred exit events the bundle
directory no longer exists. -/
theorem dirExistsAfter_exit (d : Path) (tr : List Event) :
    dirExistsAfter d (tr ++ exitEvents d) = false := by
  simp only [dirExistsAfter, exitEvents, List.foldl_append, List.foldl_cons,
    List.foldl_nil]
  simp [dirStep]

/-- The destinations of mounts related to paths are exactly those paths. -/
theorem forall₂_dest_map {fs : FS} :
    ∀ {ps : List Path} {ms : List Mount}, List.Forall₂ (MountRel fs) ps ms →
      ms.map Mount.destination = ps := by
  intro ps ms h
  induction h with
  | nil => rfl
  | cons hrel _ ih => simp only [List.map_cons, ih, hrel.2.1]

/-- Counting mounts by destination is counting the mapped destinations. -/
theorem countP_dest_eq (d : Path) :
    ∀ (ms : List Mount),
      ms.countP (fun m => decide (m.destination = d)) =
        (ms.map Mount.destination).countP (fun x => decide (x = d)) := by
  intro ms
  induction ms with
  | nil => rfl
  | cons m ms ih =>
    simp only [List.map_cons, List.countP_cons, ih]

/-- In a duplicate-free list, a member is counted exactly once. -/
theorem countP_eq_one_of_nodup {α : Type u} [DecidableEq α] :
    ∀ (l : List α) (d : α), l.Nodup → d ∈ l →
      l.countP (fun x => decide (x = d)) = 1 := by
  intro l
  induction l with
  | nil =>
    intro d _ hd
    exact absurd hd (List.not_mem_nil d)
  | cons a l ih =>
    intro d hnd hd
    rw [List.countP_cons, List.nodup_cons] at *
    rw [List.mem_cons] at hd
    by_cases had : a = d
    · subst had
      have hz : l.countP (fun x => decide (x = a)) = 0 := by
        rw [List.countP_eq_zero]
        intro b hb
        simp only [decide_eq_true_eq]
        intro hba
        exact hnd.1 (hba ▸ hb)
      simp [hz]
    · have hdl : d ∈ l := hd.resolve_left (fun h2 => had h2.symm)
      simp [ih d hnd.2 hdl, had]

/-- A list of non-members is counted zero times. -/
theorem countP_eq_zero_of_not_mem {α : Type u} [DecidableEq α]
    (l : List α) (d : α) (hd : d ∉ l) :
    l.countP (fun x => decide (x = d)) = 0 := by
  rw [List.countP_eq_zero]
  intro b hb
  simp only [decide_eq_true_eq]
  intro hbd
  exact hd (hbd ▸ hb)

/-- The specs written by run are exactly those written in its middle
region: the straight-line prefix and the deferred calls write none. -/
theorem writtenSpecs_run (cfg : Config) (h : Host) :
    writtenSpecs (run cfg h).trace = writtenSpecs (runMid cfg h).2 := by
  simp only [run, writtenSpecs, List.filterMap_append]
  show (List.filterMap specOfEvent (preEvents h.tmpDir) ++ _) ++
    List.filterMap specOfEvent (exitEvents h.tmpDir) = _
  have h1 : List.filterMap specOfEvent (preEvents h.tmpDir) = [] := rfl
  have h2 : List.filterMap specOfEvent (exitEvents h.tmpDir) = [] := rfl
  rw [h1, h2, List.nil_append, List.append_nil]

/-- The exec calls of run are exactly those of its middle region. -/
theorem execCalls_run (cfg : Config) (h : Host) :
    execCalls (run cfg h).trace = execCalls (runMid cfg h).2 := by
  simp only [run, execCalls, List.filterMap_append]
  show (List.filterMap execOfEvent (preEvents h.tmpDir) ++ _) ++
    List.filterMap execOfEvent (exitEvents h.tmpDir) = _
  have h1 : List.filterMap execOfEvent (preEvents h.tmpDir) = [] := rfl
  have h2 : List.filterMap execOfEvent (exitEvents h.tmpDir) = [] := rfl
  rw [h1, h2, List.nil_append, List.append_nil]

/-- The middle region when determining the user fails. -/
theorem runMid_user_error (cfg : Config) (h : Host) {e : String}
    (hu : originalUser h.env = Except.error e) :
    runMid cfg h = (Outcome.error ("error determining user: " ++ e), []) := by
  simp only [runMid, hu]

/-- The middle region when a fixed path fails to resolve. -/
theorem runMid_fixed_error (cfg : Config) (h : Host) {ident : Ident} {m : String}
    (hu : originalUser h.env = Except.ok ident)
    (hf : resolveMounts h.fs (fixedPaths cfg h) = Except.error m) :
    runMid cfg h = (Outcome.panicked m, []) := by
  simp only [runMid, hu, hf]

/-- The middle region when an extra directory fails to resolve. -/
theorem runMid_extra_error (cfg : Config) (h : Host) {ident : Ident}
    {fm : List Mount} {m : String}
    (hu : originalUser h.env = Except.ok ident)
    (hf : resolveMounts h.fs (fixedPaths cfg h) = Except.ok fm)
    (he : resolveMounts h.fs cfg.extraDirs = Except.error m) :
    runMid cfg h = (Outcome.panicked m, []) := by
  simp only [runMid, hu, hf, he]

/-- The middle region when the hard limit is below the threshold. -/
theorem runMid_low (cfg : Config) (h : Host) {ident : Ident} {fm em : List Mount}
    (hu : originalUser h.env = Except.ok ident)
    (hf : resolveMounts h.fs (fixedPaths cfg h) = Except.ok fm)
    (he : resolveMounts h.fs cfg.extraDirs = Except.ok em)
    (hl : h.rlimit.max < fileLimit) :
    runMid cfg h = (Outcome.error "file limit too low",
      midEventsLow cfg h ident fm em) := by
  simp only [runMid, hu, hf, he, if_pos hl, midEventsLow]

/-- The middle-region trace when the hard limit passes the check. -/
theorem runMid_high_trace (cfg : Config) (h : Host) {ident : Ident} {fm em : List Mount}
    (hu : originalUser h.env = Except.ok ident)
    (hf : resolveMounts h.fs (fixedPaths cfg h) = Except.ok fm)
    (he : resolveMounts h.fs cfg.extraDirs = Except.ok em)
    (hl : ¬ h.rlimit.max < fileLimit) :
    (runMid cfg h).2 = midEventsFull cfg h ident fm em := by
  simp only [runMid, hu, hf, he, if_neg hl, midEventsFull, midEventsLow]
  cases h.runsc with
  | startError m => rfl
  | exited c =>
    by_cases hc : c = 0
    · simp only [if_pos hc]
    · simp only [if_neg hc]

/-- The middle-region outcome when the hard limit passes the check. -/
theorem runMid_high_outcome (cfg : Config) (h : Host) {ident : Ident} {fm em : List Mount}
    (hu : originalUser h.env = Except.ok ident)
    (hf : resolveMounts h.fs (fixedPaths cfg h) = Except.ok fm)
    (he : resolveMounts h.fs cfg.extraDirs = Except.ok em)
    (hl : ¬ h.rlimit.max < fileLimit) :
    (runMid cfg h).1 =
      (match h.runsc with
       | RunscBehavior.startError m => Outcome.error ("command failed: " ++ m)
       | RunscBehavior.exited c =>
         if c = 0 then Outcome.ok
         else Outcome.error ("command failed: exit status " ++ Nat.repr c)) := by
  simp only [runMid, hu, hf, he, if_neg hl]
  cases h.runsc with
  | startError m => rfl
  | exited c =>
    by_cases hc : c = 0
    · simp only [if_pos hc]
    · simp only [if_neg hc]

/-- The middle region never creates a temporary directory. -/
theorem runMid_no_tempDir (cfg : Config) (h : Host) :
    (runMid cfg h).2.countP isTempDirEvent = 0 := by
  cases hu : originalUser h.env with
  | error e => rw [runMid_user_error cfg h hu]; rfl
  | ok ident =>
    cases hf : resolveMounts h.fs (fixedPaths cfg h) with
    | error m => rw [runMid_fixed_error cfg h hu hf]; rfl
    | ok fm =>
      cases he : resolveMounts h.fs cfg.extraDirs with
      | error m => rw [runMid_extra_error cfg h hu hf he]; rfl
      | ok em =>
        by_cases hl : h.rlimit.max < fileLimit
        · rw [runMid_low cfg h hu hf he hl]; rfl
        · rw [runMid_high_trace cfg h hu hf he hl]
          rfl

/-- Either run never writes a spec (an early failure), or the stages before
the write succeeded and exactly the spec built by mkSpec is written. -/
theorem writtenSpecs_cases (cfg : Config) (h : Host) :
    writtenSpecs (run cfg h).trace = [] ∨
    ∃ ident fm em,
      originalUser h.env = Except.ok ident ∧
      resolveMounts h.fs (fixedPaths cfg h) = Except.ok fm ∧
      resolveMounts h.fs cfg.extraDirs = Except.ok em ∧
      writtenSpecs (run cfg h).trace =
        [mkSpec cfg h.wd (h.tmpDir ++ ["rootfs"]) ident fm em] := by
  rw [writtenSpecs_run]
  cases hu : originalUser h.env with
  | error e => left; rw [runMid_user_error cfg h hu]; rfl
  | ok ident =>
    cases hf : resolveMounts h.fs (fixedPaths cfg h) with
    | error m => left; rw [runMid_fixed_error cfg h hu hf]; rfl
    | ok fm =>
      cases he : resolveMounts h.fs cfg.extraDirs with
      | error m => left; rw [runMid_extra_error cfg h hu hf he]; rfl
      | ok em =>
        right
        refine ⟨ident, fm, em, rfl, rfl, rfl, ?_⟩
        by_cases hl : h.rlimit.max < fileLimit
        · rw [runMid_low cfg h hu hf he hl]; rfl
        · rw [runMid_high_trace cfg h hu hf he hl]
          rfl

/- ### Claims -/

/-- C1: for every configuration and host — hence for any guest argument
vector, any extra environment variables, and any extra directories — every
SandboxSpec the launcher writes to config.json has an empty capability set:
the capabilities field is none (serialized as JSON null), and no step of
any execution adds a capability, since the only spec ever written is the
one mkSpec builds with capabilities hard-wired to none. -/
theorem capabilities_always_none (cfg : Config) (h : Host) (s : Spec)
    (hs : s ∈ writtenSpecs (run cfg h).trace) :
    s.process.capabilities = none := by
  rcases writtenSpecs_cases cfg h with hempty | ⟨ident, fm, em, _, _, _, heq⟩
  · rw [hempty] at hs
    exact absurd hs (List.not_mem_nil s)
  · rw [heq, List.mem_singleton] at hs
    rw [hs]
    rfl

/-- C1 witness: on the sample host the launcher writes sampleSpec, whose
capability set is empty. -/
theorem capabilities_always_none_witness :
    sampleSpec.process.capabilities = none :=
  capabilities_always_none sampleCfg sampleHost sampleSpec (by decide)

/-- C2 counterexample: with the hard fd limit at 1024 the launcher does
fail ("file limit too low"), but the temporary directory, the rootfs
subdirectory and config.json (with the full spec) have all been created
before that failure — the limit check runs after bundle construction, not
before it. -/
theorem low_fd_limit_bundle_already_created :
    (run sampleCfg lowLimitHost).outcome = Outcome.error "file limit too low" ∧
    Event.tempDir ["tmp", "gvrun123"] ∈ (run sampleCfg lowLimitHost).trace ∧
    Event.mkdir ["tmp", "gvrun123", "rootfs"] ∈ (run sampleCfg lowLimitHost).trace ∧
    Event.createFile ["tmp", "gvrun123", "config.json"] ∈ (run sampleCfg lowLimitHost).trace ∧
    Event.writeSpec ["tmp", "gvrun123", "config.json"] sampleSpec ∈
      (run sampleCfg lowLimitHost).trace := by
  decide

/-- C2 amended: when the hard fd limit is below the threshold (and the
stages before the check succeed), the launcher fails with the limit error
and never invokes the runtime, but the temporary directory, rootfs and
config.json have already been created at that point; the deferred cleanup
then removes the bundle directory, so no partial state survives the exit. -/
theorem low_fd_limit_fails_after_bundle (cfg : Config) (h : Host)
    (hu : exceptOk (originalUser h.env) = true)
    (hf : exceptOk (resolveMounts h.fs (fixedPaths cfg h)) = true)
    (he : exceptOk (resolveMounts h.fs cfg.extraDirs) = true)
    (hl : h.rlimit.max < fileLimit) :
    (run cfg h).outcome = Outcome.error "file limit too low" ∧
    execCalls (run cfg h).trace = [] ∧
    Event.tempDir h.tmpDir ∈ (run cfg h).trace ∧
    Event.mkdir (h.tmpDir ++ ["rootfs"]) ∈ (run cfg h).trace ∧
    Event.createFile (h.tmpDir ++ ["config.json"]) ∈ (run cfg h).trace ∧
    dirExistsAfter h.tmpDir (run cfg h).trace = false := by
  obtain ⟨ident, hu⟩ := exceptOk_exists hu
  obtain ⟨fm, hf⟩ := exceptOk_exists hf
  obtain ⟨em, he⟩ := exceptOk_exists he
  have hmid := runMid_low cfg h hu hf he hl
  refine ⟨?_, ?_, ?_, ?_, ?_, ?_⟩
  · simp only [run]
    rw [hmid]
  · rw [execCalls_run, hmid]
    rfl
  · simp only [run]
    simp [preEvents]
  · simp only [run]
    simp [preEvents]
  · simp only [run]
    simp [preEvents]
  · simp only [run]
    exact dirExistsAfter_exit h.tmpDir _

/-- C2 witness: the amended behaviour on the sample host with a hard limit
of 1024. -/
theorem low_fd_limit_fails_after_bundle_witness :
    (run sampleCfg lowLimitHost).outcome = Outcome.error "file limit too low" ∧
    execCalls (run sampleCfg lowLimitHost).trace = [] ∧
    Event.tempDir lowLimitHost.tmpDir ∈ (run sampleCfg lowLimitHost).trace ∧
    Event.mkdir (lowLimitHost.tmpDir ++ ["rootfs"]) ∈ (run sampleCfg lowLimitHost).trace ∧
    Event.createFile (lowLimitHost.tmpDir ++ ["config.json"]) ∈
      (run sampleCfg lowLimitHost).trace ∧
    dirExistsAfter lowLimitHost.tmpDir (run sampleCfg lowLimitHost).trace = false :=
  low_fd_limit_fails_after_bundle sampleCfg lowLimitHost
    (by decide) (by decide) (by decide) (by decide)

/-- C3 counterexample: when the guest (relayed by runsc) exits with status
5, the launcher exits with status 1 from log.Fatal, not with 5 — the exit
code of the guest is not relayed. -/
theorem guest_exit_code_not_relayed :
    guestFailHost.runsc = RunscBehavior.exited 5 ∧
    mainExit sampleCfg guestFailHost = 1 ∧
    mainExit sampleCfg guestFailHost ≠ 5 := by
  decide

/-- C3 amended: the exit code is 0 exactly when the child exits 0; every
failure of cmd.Run — the child exiting nonzero (guest failure) as well as
the child failing to start — goes through log.Fatal and exits 1, the same
code as every other launcher-internal error; the exit code of the guest is
never relayed. -/
theorem exit_code_behavior (cfg : Config) (h : Host)
    (hargs : cfg.args ≠ []) (hbin : cfg.runscBin ≠ "")
    (hu : exceptOk (originalUser h.env) = true)
    (hf : exceptOk (resolveMounts h.fs (fixedPaths cfg h)) = true)
    (he : exceptOk (resolveMounts h.fs cfg.extraDirs) = true)
    (hl : fileLimit ≤ h.rlimit.max) :
    mainExit cfg h = fatalExitFor h.runsc := by
  obtain ⟨ident, hu⟩ := exceptOk_exists hu
  obtain ⟨fm, hf⟩ := exceptOk_exists hf
  obtain ⟨em, he⟩ := exceptOk_exists he
  have hout := runMid_high_outcome cfg h hu hf he (not_lt.mpr hl)
  simp only [mainExit, if_neg hargs, if_neg hbin, run]
  rw [hout]
  cases h.runsc with
  | startError m => rfl
  | exited c =>
    cases c with
    | zero => rfl
    | succ n => rfl

/-- C3 witness: on the sample host with a guest exiting 5 the launcher
exits with fatalExitFor of that behaviour, namely 1. -/
theorem exit_code_behavior_witness :
    mainExit sampleCfg guestFailHost = fatalExitFor guestFailHost.runsc :=
  exit_code_behavior sampleCfg guestFailHost
    (by decide) (by decide) (by decide) (by decide) (by decide) (by decide)

/-- C4: on every execution path — success, guest failure, internal error,
or resolution panic — exactly one temporary bundle directory is created,
and after the trace (the deferred removal runs last, on panic unwinding
too) that directory no longer exists. -/
theorem bundle_dir_always_removed (cfg : Config) (h : Host) :
    (run cfg h).trace.countP isTempDirEvent = 1 ∧
    dirExistsAfter h.tmpDir (run cfg h).trace = false := by
  constructor
  · show ((preEvents h.tmpDir ++ (runMid cfg h).2) ++
      exitEvents h.tmpDir).countP isTempDirEvent = 1
    rw [List.countP_append, List.countP_append, runMid_no_tempDir cfg h]
    rfl
  · show dirExistsAfter h.tmpDir ((preEvents h.tmpDir ++ (runMid cfg h).2) ++
      exitEvents h.tmpDir) = false
    exact dirExistsAfter_exit h.tmpDir _

/-- C5 counterexample: for a path that does not resolve (/bin/missing does
not exist), resolvedMount panics instead of returning an error result: the
whole launcher aborts through panic unwinding (Go panic exit status 2, not
the log.Fatal error status 1), so no error is propagated to the caller. -/
theorem resolution_failure_panics_not_error :
    resolvedMount sampleFS ["bin", "missing"] =
      MountRes.panicked (resolveMsg ["bin", "missing"]) ∧
    (run missingBinCfg sampleHost).outcome =
      Outcome.panicked (resolveMsg ["bin", "missing"]) ∧
    mainExit missingBinCfg sampleHost = 2 := by
  decide

/-- C5 amended: for every input path whose resolution cannot complete (a
component does not exist, a non-final component is not a directory, or the
symlink budget is exhausted, e.g. by a loop), the resolver panics — it
aborts the invocation rather than propagating an error result to the
caller; otherwise it returns a bind mount from the original path to the
canonical path, in which every symlink component, the final one included,
has been resolved. -/
theorem resolvedMount_spec (fs : FS) (p : Path) :
    (evalSymlinks fs p = none →
      resolvedMount fs p = MountRes.panicked (resolveMsg p)) ∧
    (∀ r, evalSymlinks fs p = some r →
      resolvedMount fs p =
        MountRes.ok { type := "bind", destination := p, source := r } ∧
      fullyResolved fs r) := by
  constructor
  · intro hnone
    unfold resolvedMount
    rw [hnone]
  · intro r hr
    refine ⟨?_, evalSymlinks_resolved hr⟩
    unfold resolvedMount
    rw [hr]

/-- C5 witness: /bin/sh is a symlink to /bin/echo on the sample host; the
resolver returns the bind mount to the fully resolved target. -/
theorem resolvedMount_spec_witness :
    resolvedMount sampleFS ["bin", "sh"] =
      MountRes.ok { type := "bind", destination := ["bin", "sh"],
                    source := ["bin", "echo"] } ∧
    fullyResolved sampleFS ["bin", "echo"] :=
  (resolvedMount_spec sampleFS ["bin", "sh"]).2 ["bin", "echo"] (by decide)

/-- C6 counterexample: passing the same extra directory twice mounts it
twice — the (single) written spec contains two entries with destination
/bin, not exactly one. -/
theorem duplicate_extra_dir_double_mount :
    (writtenSpecs (run dupExtraCfg sampleHost).trace).map
      (fun s => s.mounts.countP (fun m => decide (m.destination = (["bin"] : Path)))) =
      [2] := by
  decide

/-- C6 amended: when a spec is written, its mount list is the fixed mounts
followed by one bind entry per extra directory, in input order, each with
destination the original path and source its resolved form; provided the
extra directories are pairwise distinct and distinct from the fixed paths,
each appears exactly once in the mount list. -/
theorem extra_dirs_mount_structure (cfg : Config) (h : Host) (s : Spec)
    (hs : s ∈ writtenSpecs (run cfg h).trace)
    (hnd : cfg.extraDirs.Nodup)
    (hdisj : ∀ d ∈ cfg.extraDirs, d ∉ fixedPaths cfg h) :
    exceptOk (resolveMounts h.fs (fixedPaths cfg h)) = true ∧
    exceptOk (resolveMounts h.fs cfg.extraDirs) = true ∧
    s.mounts = mountsOrNil (resolveMounts h.fs (fixedPaths cfg h)) ++
      mountsOrNil (resolveMounts h.fs cfg.extraDirs) ∧
    List.Forall₂ (MountRel h.fs) cfg.extraDirs
      (mountsOrNil (resolveMounts h.fs cfg.extraDirs)) ∧
    (cfg.extraDirs.all fun d =>
      s.mounts.countP (fun m => decide (m.destination = d)) == 1) = true := by
  rcases writtenSpecs_cases cfg h with hempty | ⟨ident, fm, em, hu, hf, he, heq⟩
  · rw [hempty] at hs
    exact absurd hs (List.not_mem_nil s)
  · rw [heq, List.mem_singleton] at hs
    subst hs
    have hrelF := resolveMounts_ok_rel h.fs _ fm hf
    have hrelE := resolveMounts_ok_rel h.fs _ em he
    have hmapF : fm.map Mount.destination = fixedPaths cfg h := forall₂_dest_map hrelF
    have hmapE : em.map Mount.destination = cfg.extraDirs := forall₂_dest_map hrelE
    refine ⟨?_, ?_, ?_, ?_, ?_⟩
    · rw [hf]
      rfl
    · rw [he]
      rfl
    · rw [hf, he]
      rfl
    · rw [he]
      exact hrelE
    · rw [List.all_eq_true]
      intro d hd
      rw [beq_iff_eq]
      show (fm ++ em).countP (fun m => decide (m.destination = d)) = 1
      rw [List.countP_append, countP_dest_eq d fm, countP_dest_eq d em,
        hmapF, hmapE, countP_eq_zero_of_not_mem _ d (hdisj d hd),
        countP_eq_one_of_nodup _ d hnd hd]

/-- C6 witness: with extras /bin and /home the written spec is the fixed
mounts plus the two extras in order, each exactly once. -/
theorem extra_dirs_mount_structure_witness :
    exceptOk (resolveMounts sampleHost.fs (fixedPaths extrasCfg sampleHost)) = true ∧
    exceptOk (resolveMounts sampleHost.fs extrasCfg.extraDirs) = true ∧
    extrasSpec.mounts =
      mountsOrNil (resolveMounts sampleHost.fs (fixedPaths extrasCfg sampleHost)) ++
      mountsOrNil (resolveMounts sampleHost.fs extrasCfg.extraDirs) ∧
    List.Forall₂ (MountRel sampleHost.fs) extrasCfg.extraDirs
      (mountsOrNil (resolveMounts sampleHost.fs extrasCfg.extraDirs)) ∧
    (extrasCfg.extraDirs.all fun d =>
      extrasSpec.mounts.countP (fun m => decide (m.destination = d)) == 1) = true :=
  extra_dirs_mount_structure extrasCfg sampleHost extrasSpec
    (by decide) (by decide) (by decide)

/-- C7: when the stages before the limiter succeed, the launcher reads the
fd limits exactly once; if the hard limit is below the threshold it fails
with the limit error, never writes a limit and never invokes the runtime;
if the hard limit is at least the threshold it sets the soft limit to the
threshold, keeping the hard limit. -/
theorem rlimit_behavior (cfg : Config) (h : Host)
    (hu : exceptOk (originalUser h.env) = true)
    (hf : exceptOk (resolveMounts h.fs (fixedPaths cfg h)) = true)
    (he : exceptOk (resolveMounts h.fs cfg.extraDirs) = true) :
    (run cfg h).trace.countP isGetrlimitEvent = 1 ∧
    (if h.rlimit.max < fileLimit
     then (run cfg h).outcome = Outcome.error "file limit too low" ∧
       (run cfg h).trace.countP isSetrlimitEvent = 0 ∧
       execCalls (run cfg h).trace = []
     else Event.setrlimit { cur := fileLimit, max := h.rlimit.max } ∈
       (run cfg h).trace) := by
  obtain ⟨ident, hu⟩ := exceptOk_exists hu
  obtain ⟨fm, hf⟩ := exceptOk_exists hf
  obtain ⟨em, he⟩ := exceptOk_exists he
  by_cases hl : h.rlimit.max < fileLimit
  · have hmid := runMid_low cfg h hu hf he hl
    rw [if_pos hl]
    refine ⟨?_, ?_, ?_, ?_⟩
    · show ((preEvents h.tmpDir ++ (runMid cfg h).2) ++
        exitEvents h.tmpDir).countP isGetrlimitEvent = 1
      rw [hmid]
      rfl
    · simp only [run]
      rw [hmid]
    · show ((preEvents h.tmpDir ++ (runMid cfg h).2) ++
        exitEvents h.tmpDir).countP isSetrlimitEvent = 0
      rw [hmid]
      rfl
    · rw [execCalls_run, hmid]
      rfl
  · have hmid := runMid_high_trace cfg h hu hf he hl
    rw [if_neg hl]
    constructor
    · show ((preEvents h.tmpDir ++ (runMid cfg h).2) ++
        exitEvents h.tmpDir).countP isGetrlimitEvent = 1
      rw [hmid]
      rfl
    · show Event.setrlimit { cur := fileLimit, max := h.rlimit.max } ∈
        (preEvents h.tmpDir ++ (runMid cfg h).2) ++ exitEvents h.tmpDir
      rw [hmid]
      simp [midEventsFull, midEventsLow, preEvents, exitEvents]

/-- C7 witness: on the sample host (hard limit 65536) the limiter reads
once and raises the soft limit to the threshold. -/
theorem rlimit_behavior_witness :
    (run sampleCfg sampleHost).trace.countP isGetrlimitEvent = 1 ∧
    (if sampleHost.rlimit.max < fileLimit
     then (run sampleCfg sampleHost).outcome = Outcome.error "file limit too low" ∧
       (run sampleCfg sampleHost).trace.countP isSetrlimitEvent = 0 ∧
       execCalls (run sampleCfg sampleHost).trace = []
     else Event.setrlimit { cur := fileLimit, max := sampleHost.rlimit.max } ∈
       (run sampleCfg sampleHost).trace) :=
  rlimit_behavior sampleCfg sampleHost (by decide) (by decide) (by decide)

/-- C8 counterexample: the actual child argument vector also contains the
--bundle flag, the runsc binary itself as argv0, and a trailing fixed
container name "gvrun" — it does not consist only of the overlay flag, the
network flag, the run action and the bundle path. -/
theorem runsc_argv_has_extra_elements :
    execCalls (run sampleCfg sampleHost).trace =
      [{ argv := ["runsc", "--overlay", "--network=none", "run", "--bundle",
                  "/tmp/gvrun123", "gvrun"],
         stdin := StdStream.hostStdin,
         stdout := StdStream.hostStdout,
         stderr := StdStream.hostStderr }] ∧
    (["runsc", "--overlay", "--network=none", "run", "--bundle",
      "/tmp/gvrun123", "gvrun"] : List String) ≠
      ["--overlay", "--network=none", "run", "/tmp/gvrun123"] ∧
    (["runsc", "--overlay", "--network=none", "run", "--bundle",
      "/tmp/gvrun123", "gvrun"] : List String) ≠
      ["runsc", "--overlay", "--network=none", "run", "--bundle",
       "/tmp/gvrun123"] := by
  decide

/-- C8 amended: every invocation that reaches the runtime performs exactly
one exec, whose argument vector is the runsc binary, the overlay flag, the
networking-off flag, the run action, the bundle flag with the bundle
directory path, and the fixed container name "gvrun", with the standard
input, output and error streams of the launcher forwarded to the child. -/
theorem runsc_invocation_spec (cfg : Config) (h : Host)
    (hu : exceptOk (originalUser h.env) = true)
    (hf : exceptOk (resolveMounts h.fs (fixedPaths cfg h)) = true)
    (he : exceptOk (resolveMounts h.fs cfg.extraDirs) = true)
    (hl : fileLimit ≤ h.rlimit.max) :
    execCalls (run cfg h).trace =
      [{ argv := runscArgv cfg h.tmpDir,
         stdin := StdStream.hostStdin,
         stdout := StdStream.hostStdout,
         stderr := StdStream.hostStderr }] := by
  obtain ⟨ident, hu⟩ := exceptOk_exists hu
  obtain ⟨fm, hf⟩ := exceptOk_exists hf
  obtain ⟨em, he⟩ := exceptOk_exists he
  rw [execCalls_run, runMid_high_trace cfg h hu hf he (not_lt.mpr hl)]
  rfl

/-- C8 witness: the single exec call on the sample host. -/
theorem runsc_invocation_spec_witness :
    execCalls (run sampleCfg sampleHost).trace =
      [{ argv := runscArgv sampleCfg sampleHost.tmpDir,
         stdin := StdStream.hostStdin,
         stdout := StdStream.hostStdout,
         stderr := StdStream.hostStderr }] :=
  runsc_invocation_spec sampleCfg sampleHost
    (by decide) (by decide) (by decide) (by decide)

/-- C9: originalUser returns the identity whose uid and gid are parsed from
SUDO_UID and SUDO_GID as 32-bit unsigned decimal integers and whose
username is SUDO_USER, and fails exactly when one of the three values is
absent or a numeric one does not parse. -/
theorem identity_resolver_spec (env : Env) :
    match env "SUDO_UID", env "SUDO_GID", env "SUDO_USER" with
    | some u, some g, some n =>
      (match parseUint32 u, parseUint32 g with
       | some uid, some gid =>
         originalUser env = Except.ok { uid := uid, gid := gid, username := n }
       | _, _ => exceptOk (originalUser env) = false)
    | _, _, _ => exceptOk (originalUser env) = false := by
  cases h1 : env "SUDO_UID" with
  | none => simp [originalUser, h1, exceptOk]
  | some u =>
    cases hp : parseUint32 u with
    | none =>
      cases h2 : env "SUDO_GID" with
      | none => simp [originalUser, h1, hp, exceptOk]
      | some g =>
        cases h3 : env "SUDO_USER" with
        | none => simp [originalUser, h1, hp, exceptOk]
        | some n => simp [originalUser, h1, hp, exceptOk]
    | some uid =>
      cases h2 : env "SUDO_GID" with
      | none => simp [originalUser, h1, hp, h2, exceptOk]
      | some g =>
        cases hq : parseUint32 g with
        | none =>
          cases h3 : env "SUDO_USER" with
          | none => simp [originalUser, h1, hp, h2, hq, exceptOk]
          | some n => simp [originalUser, h1, hp, h2, hq, exceptOk]
        | some gid =>
          cases h3 : env "SUDO_USER" with
          | none => simp [originalUser, h1, hp, h2, hq, h3, exceptOk]
          | some n => simp [originalUser, h1, hp, h2, hq, h3, exceptOk]

/-- C10: when the invoking identity is available but any of the eight fixed
paths — the guest binary, the working directory, or the six library paths
covering both installation layouts — fails to resolve, bundle construction
aborts through the panic branch of the resolver and the external runtime is
never invoked: the launcher cannot run on a host lacking either layout. -/
theorem missing_fixed_path_aborts (cfg : Config) (h : Host)
    (hu : exceptOk (originalUser h.env) = true)
    (hbad : ∃ p ∈ fixedPaths cfg h, evalSymlinks h.fs p = none) :
    isPanic (run cfg h).outcome = true ∧
    execCalls (run cfg h).trace = [] := by
  obtain ⟨ident, hu⟩ := exceptOk_exists hu
  obtain ⟨e, hf⟩ := resolveMounts_error_of_fail h.fs _ hbad
  constructor
  · simp only [run]
    rw [runMid_fixed_error cfg h hu hf]
    rfl
  · rw [execCalls_run, runMid_fixed_error cfg h hu hf]
    rfl

/-- C10 witness: a host lacking the /usr/grte/v4 library files panics
before any exec. -/
theorem missing_fixed_path_aborts_witness :
    isPanic (run sampleCfg noGrteHost).outcome = true ∧
    execCalls (run sampleCfg noGrteHost).trace = [] :=
  missing_fixed_path_aborts sampleCfg noGrteHost (by decide) (by decide)

end Gvrun

